import Mathlib

set_option maxRecDepth 4000

/-!
Shallow embedding of the two C programs of this repository:
src/learning/c-examples/06-file-read.c (the reader) and
src/learning/c-examples/07-file-write.c (the writer).

File contents are modelled as lists of characters; a file system state for
each program is the contents of the one file it touches, with `none`
standing for a file that cannot be opened (for the reader, a missing
test.txt). The uninitialized 100-byte stack buffer of the reader is an
arbitrary list of 100 characters supplied as input. Handle acquisition and
release are recorded in an event trace.
-/

/-- Handle events recorded by a run: a successful open, a failed open
(fopen returned NULL), and a close (fclose). -/
inductive Event where
  | openOk
  | openFail
  | close
deriving DecidableEq, Repr

/-- The characters fgets transfers into the buffer given a budget of n
characters (fgets with size s has budget s - 1): characters are copied
one at a time, stopping after a newline is copied or the budget or the
stream is exhausted. -/
def fgetsChars : Nat → List Char → List Char
  | 0, _ => []
  | _ + 1, [] => []
  | n + 1, c :: rest => if c = '\n' then [c] else c :: fgetsChars n rest

/-- Overwrite the front of a buffer with the given characters, leaving the
rest of the buffer unchanged, as a sequence of in-place stores does. -/
def writePrefix (buf pre : List Char) : List Char :=
  pre ++ buf.drop pre.length

/-- fgets(buf, n, stream) on a stream holding the given contents: at
immediate end of file it returns NULL and leaves the buffer unchanged;
otherwise it copies at most n - 1 characters, stopping after a newline,
stores a terminating null character after them, and returns the buffer
(modelled as the Boolean true). -/
def fgets (buf : List Char) (n : Nat) (contents : List Char) :
    List Char × Bool :=
  match contents with
  | [] => (buf, false)
  | _ :: _ => (writePrefix buf (fgetsChars (n - 1) contents ++ ['\x00']), true)

/-- The string printf %s reads from a buffer: the characters before the
first null character. -/
def cString (buf : List Char) : List Char :=
  buf.takeWhile (fun c => c != '\x00')

/-- Result of one run of the reader. -/
structure ReaderResult where
  exitCode : Nat
  stdout : List Char
  buffer : List Char
  testTxtAfter : Option (List Char)
  events : List Event
deriving Repr

/-- The main function of 06-file-read.c. Input: the contents of test.txt
(`none` when fopen fails, e.g. the file is missing) and the indeterminate
initial contents of the 100-byte stack buffer. fopen with mode r and fgets
perform no write on the file, so the contents of test.txt are carried
through unchanged on the success path. -/
def readerMain (testTxt : Option (List Char)) (stackBuf : List Char) :
    ReaderResult :=
  match testTxt with
  | none =>
      { exitCode := 1
        stdout := "Could not open file\n".data
        buffer := stackBuf
        testTxtAfter := none
        events := [Event.openFail] }
  | some contents =>
      let buf := (fgets stackBuf 100 contents).1
      { exitCode := 0
        stdout := "Read: ".data ++ cString buf ++ ['\n']
        buffer := buf
        testTxtAfter := some contents
        events := [Event.openOk, Event.close] }

/-- Result of one run of the writer. -/
structure WriterResult where
  exitCode : Nat
  stdout : List Char
  outputTxtAfter : Option (List Char)
  events : List Event
deriving Repr

/-- fopen(name, "w") over the modelled file system state: the state the
claims quantify over is the prior contents of output.txt (or its absence),
and over that state space opening for writing always succeeds, creating
the file or truncating it to empty contents. -/
def fopenW (_prior : Option (List Char)) : Option (List Char) :=
  some []

/-- The main function of 07-file-write.c, with the handle returned by
fopen supplied by the environment: fopen(name, "w") can also return NULL
for reasons outside the modelled file contents, such as an unwritable
directory, and then the early failure branch runs. On a returned handle,
fprintf appends to the handle contents and fclose publishes them to the
file system. -/
def writerMainEnv (wOpen : Option (List Char))
    (prior : Option (List Char)) : WriterResult :=
  match wOpen with
  | none =>
      { exitCode := 1
        stdout := "Could not create file\n".data
        outputTxtAfter := prior
        events := [Event.openFail] }
  | some f =>
      { exitCode := 0
        stdout := "File written successfully\n".data
        outputTxtAfter := some (f ++ "Hello from C!\n".data)
        events := [Event.openOk, Event.close] }

/-- The main function of 07-file-write.c run over the modelled file system
state. Input: the prior contents of output.txt, `none` when the file is
absent; the handle is the one fopen returns over that state. -/
def writerMain (prior : Option (List Char)) : WriterResult :=
  writerMainEnv (fopenW prior) prior

/-- The first line of a file: the characters before the first newline. -/
def firstLine (contents : List Char) : List Char :=
  contents.takeWhile (fun c => c != '\n')

/-- The first line of a file cut off at n characters. -/
def firstLineUpTo (n : Nat) (contents : List Char) : List Char :=
  (firstLine contents).take n

/-- A trace respects handle discipline when every successfully acquired
handle is closed exactly once and no close happens without a matching
successful open. -/
def handleDiscipline (evts : List Event) : Prop :=
  evts.count Event.close = evts.count Event.openOk ∧
    evts.count Event.openOk ≤ 1

/-- On a nonempty stream the reader stores the transferred characters and a
terminating null at the front of the stack buffer. -/
lemma readerMain_buffer_eq (contents stackBuf : List Char)
    (h : contents ≠ []) :
    (readerMain (some contents) stackBuf).buffer =
      writePrefix stackBuf (fgetsChars 99 contents ++ ['\x00']) := by
  cases contents with
  | nil => exact absurd rfl h
  | cons c cs => rfl

/-- On a nonempty stream the standard output of the reader is the Read:
prefix, the printed buffer string, and a newline. -/
lemma readerMain_stdout_eq (contents stackBuf : List Char)
    (h : contents ≠ []) :
    (readerMain (some contents) stackBuf).stdout =
      "Read: ".data ++
        cString (writePrefix stackBuf (fgetsChars 99 contents ++ ['\x00'])) ++
        ['\n'] := by
  cases contents with
  | nil => exact absurd rfl h
  | cons c cs => rfl

/-- Characters of the first line are not newlines. -/
lemma ne_newline_of_mem_firstLine {c : Char} {l : List Char}
    (h : c ∈ firstLine l) : c ≠ '\n' := by
  have := List.mem_takeWhile_imp h
  simpa [bne_iff_ne] using this

/-- When a prefix of length n lies inside the first line, taking n
characters of the file and of its first line agree. -/
lemma take_eq_firstLine_take (l : List Char) :
    ∀ n : Nat, n ≤ (firstLine l).length → l.take n = (firstLine l).take n := by
  induction l with
  | nil => intro n _; rfl
  | cons c cs ih =>
    intro n hn
    cases n with
    | zero => rfl
    | succ k =>
      by_cases hc : c = '\n'
      · rw [show firstLine (c :: cs) = [] from by
            simp [firstLine, List.takeWhile_cons, hc]] at hn
        exact absurd hn (by simp)
      · have hfl : firstLine (c :: cs) = c :: firstLine cs := by
          simp [firstLine, List.takeWhile_cons, bne_iff_ne, hc]
        rw [hfl] at hn ⊢
        rw [List.take_succ_cons, List.take_succ_cons,
          ih k (Nat.le_of_succ_le_succ hn)]

/-- When the first line extends past n characters, no newline appears among
the first n characters of the file. -/
lemma no_newline_in_take (l : List Char) (n : Nat)
    (h : n ≤ (firstLine l).length) : '\n' ∉ l.take n := by
  intro hm
  rw [take_eq_firstLine_take l n h] at hm
  exact ne_newline_of_mem_firstLine (List.take_subset n (firstLine l) hm) rfl

/-- fgets transfers exactly the first n characters when no newline is among
them. -/
lemma fgetsChars_of_no_newline (n : Nat) (l : List Char) :
    '\n' ∉ l.take n → fgetsChars n l = l.take n := by
  induction n generalizing l with
  | zero => intro _; simp [fgetsChars]
  | succ k ih =>
    intro h
    cases l with
    | nil => simp [fgetsChars]
    | cons c rest =>
      rw [List.take_succ_cons] at h
      have hc : ¬ c = '\n' := by
        intro e; subst e; exact h (List.mem_cons_self _ _)
      have hr : '\n' ∉ rest.take k := fun hm => h (List.mem_cons_of_mem c hm)
      simp [fgetsChars, hc, List.take_succ_cons, ih rest hr]

/-- fgets transfers the whole first line and its newline terminator when the
terminator falls within the budget. -/
lemma fgetsChars_of_newline (n : Nat) (l : List Char) :
    (firstLine l).length < n → '\n' ∈ l →
      fgetsChars n l = firstLine l ++ ['\n'] := by
  induction n generalizing l with
  | zero => intro h _; exact absurd h (Nat.not_lt_zero _)
  | succ k ih =>
    intro h hm
    cases l with
    | nil => cases hm
    | cons c rest =>
      by_cases hc : c = '\n'
      · subst hc
        simp [fgetsChars, firstLine, List.takeWhile_cons]
      · have hm2 : '\n' ∈ rest := by
          rcases List.mem_cons.mp hm with e | hm2
          · exact absurd e.symm hc
          · exact hm2
        have hfl : firstLine (c :: rest) = c :: firstLine rest := by
          simp [firstLine, List.takeWhile_cons, bne_iff_ne, hc]
        have hl : (firstLine rest).length < k := by
          rw [hfl] at h
          simpa using Nat.lt_of_succ_lt_succ h
        simp [fgetsChars, hc, hfl, ih rest hl hm2]

/-- The printf string of a buffer holding null-free characters, a null, and
arbitrary leftovers is exactly those characters. -/
lemma cString_append (r s : List Char) (h : '\x00' ∉ r) :
    cString (r ++ '\x00' :: s) = r := by
  induction r with
  | nil => simp [cString, List.takeWhile_cons]
  | cons a r ih =>
    have ha : ¬ a = '\x00' := by
      intro e; subst e; exact h (List.mem_cons_self _ _)
    have h2 : '\x00' ∉ r := fun hm => h (List.mem_cons_of_mem a hm)
    rw [List.cons_append]
    simp [cString, List.takeWhile_cons, bne_iff_ne, ha]
    have := ih h2
    simpa [cString] using this

/-- The printf string of the buffer after fgets wrote null-free characters
and the terminator is exactly those characters. -/
lemma cString_writePrefix (buf r : List Char) (h : '\x00' ∉ r) :
    cString (writePrefix buf (r ++ ['\x00'])) = r := by
  have hw : writePrefix buf (r ++ ['\x00']) =
      r ++ '\x00' :: buf.drop (r ++ ['\x00']).length := by
    simp [writePrefix]
  rw [hw, cString_append r _ h]

/-- Claim C2: for every prior state of output.txt (any contents, or
absent), running the writer leaves output.txt containing exactly the line
Hello from C! followed by a newline, and the process exits with
status 0. -/
theorem writer_writes_hello (prior : Option (List Char)) :
    (writerMain prior).outputTxtAfter = some "Hello from C!\n".data ∧
      (writerMain prior).exitCode = 0 :=
  ⟨rfl, rfl⟩

/-- Claim C3: when test.txt cannot be opened the reader prints the failure
message, exits with status 1, performs no read into the buffer, and leaves
the rest of the state unchanged. -/
theorem reader_open_failure (stackBuf : List Char) :
    (readerMain none stackBuf).exitCode = 1 ∧
      (readerMain none stackBuf).stdout = "Could not open file\n".data ∧
      (readerMain none stackBuf).buffer = stackBuf ∧
      (readerMain none stackBuf).events = [Event.openFail] :=
  ⟨rfl, rfl, rfl, rfl⟩

/-- Claim C4: running the writer twice in succession leaves output.txt in
the same final state as running it once, for every prior state: the open
truncates rather than appends. -/
theorem writer_idempotent (prior : Option (List Char)) :
    (writerMain (writerMain prior).outputTxtAfter).outputTxtAfter =
      (writerMain prior).outputTxtAfter :=
  rfl

/-- Claim C7: in both the reader and the writer, on every exit path,
success as well as early failure of the open (for the writer, for every
outcome fopen can return, NULL included), the number of closes equals the
number of successful opens and at most one handle is acquired: every
acquired handle is released exactly once and no path closes a handle that
was never acquired. -/
theorem handle_discipline_all_paths (testTxt : Option (List Char))
    (stackBuf : List Char) (wOpen prior : Option (List Char)) :
    handleDiscipline (readerMain testTxt stackBuf).events ∧
      handleDiscipline (writerMainEnv wOpen prior).events ∧
      handleDiscipline (writerMain prior).events := by
  refine ⟨?_, ?_, ⟨rfl, Nat.le_refl 1⟩⟩
  · cases testTxt
    · exact ⟨rfl, Nat.zero_le 1⟩
    · exact ⟨rfl, Nat.le_refl 1⟩
  · cases wOpen
    · exact ⟨rfl, Nat.zero_le 1⟩
    · exact ⟨rfl, Nat.le_refl 1⟩

/-- Claim C8: whenever output.txt is successfully opened (which over the
modelled state space is every run), the writer prints the success line to
standard output and returns 0, after the write and the release recorded in
the trace. -/
theorem writer_reports_success (prior : Option (List Char)) :
    (writerMain prior).stdout = "File written successfully\n".data ∧
      (writerMain prior).exitCode = 0 ∧
      (writerMain prior).events = [Event.openOk, Event.close] :=
  ⟨rfl, rfl, rfl⟩

/-- Claim C9: whenever the open of test.txt succeeds the reader exits with
status 0 regardless of the outcome of the read, and standard output is a
Read: line, also when the file is empty. -/
theorem reader_exit_zero_after_open (contents stackBuf : List Char) :
    (readerMain (some contents) stackBuf).exitCode = 0 ∧
      ∃ s, (readerMain (some contents) stackBuf).stdout =
        "Read: ".data ++ s ++ ['\n'] :=
  ⟨rfl, cString (readerMain (some contents) stackBuf).buffer, rfl⟩

/-- Claim C10: the reader never modifies test.txt: the contents after a
run equal the contents before, on every path. -/
theorem reader_preserves_test_txt (testTxt : Option (List Char))
    (stackBuf : List Char) :
    (readerMain testTxt stackBuf).testTxtAfter = testTxt := by
  cases testTxt <;> rfl

/-- Claim C1 counterexample: a first line holding a null byte is terminated
by a newline, yet the standard output of the reader does not contain that
first line, because printf stops printing the buffer at the null byte. -/
theorem reader_first_line_nul_counterexample :
    '\n' ∈ ['a', '\x00', 'b', '\n'] ∧
      ¬ firstLineUpTo 99 ['a', '\x00', 'b', '\n'] <:+:
        (readerMain (some ['a', '\x00', 'b', '\n'])
          (List.replicate 100 'a')).stdout := by
  refine ⟨by decide, fun h => ?_⟩
  have hm : '\x00' ∈ (readerMain (some ['a', '\x00', 'b', '\n'])
      (List.replicate 100 'a')).stdout :=
    h.subset (by decide)
  exact absurd hm (by decide)

/-- Claim C1, amended: when test.txt exists, its first line is terminated
by a newline, and that line holds no null byte within its first 99
characters, the reader exits with status 0 and its standard output is
exactly the Read: prefix, the first line cut at the terminator or at 99
characters, and one or two trailing newlines. -/
theorem reader_outputs_first_line (contents stackBuf : List Char)
    (h1 : '\n' ∈ contents) (h2 : '\x00' ∉ firstLineUpTo 99 contents) :
    (readerMain (some contents) stackBuf).exitCode = 0 ∧
      ∃ t, (t = ['\n'] ∨ t = ['\n', '\n']) ∧
        (readerMain (some contents) stackBuf).stdout =
          "Read: ".data ++ firstLineUpTo 99 contents ++ t := by
  have hne : contents ≠ [] := List.ne_nil_of_mem h1
  refine ⟨rfl, ?_⟩
  rw [readerMain_stdout_eq contents stackBuf hne]
  by_cases hlt : (firstLine contents).length < 99
  · have hA := fgetsChars_of_newline 99 contents hlt h1
    have hfl : firstLineUpTo 99 contents = firstLine contents := by
      simp [firstLineUpTo, List.take_of_length_le (Nat.le_of_lt hlt)]
    have hnul : '\x00' ∉ firstLine contents ++ ['\n'] := by
      rw [hfl] at h2
      intro hm
      rcases List.mem_append.mp hm with hm | hm
      · exact h2 hm
      · simp at hm
    refine ⟨['\n', '\n'], Or.inr rfl, ?_⟩
    rw [hA, cString_writePrefix stackBuf _ hnul, hfl]
    simp
  · have hge : 99 ≤ (firstLine contents).length := Nat.le_of_not_lt hlt
    have hB := fgetsChars_of_no_newline 99 contents
      (no_newline_in_take contents 99 hge)
    have hfl : firstLineUpTo 99 contents = contents.take 99 := by
      rw [firstLineUpTo, ← take_eq_firstLine_take contents 99 hge]
    have hnul : '\x00' ∉ contents.take 99 := by rw [hfl] at h2; exact h2
    refine ⟨['\n'], Or.inl rfl, ?_⟩
    rw [hB, cString_writePrefix stackBuf _ hnul, hfl]

/-- Witness for the amended claim C1 at a concrete file. -/
theorem reader_outputs_first_line_witness :
    '\n' ∈ "hi\n".data ∧ '\x00' ∉ firstLineUpTo 99 "hi\n".data ∧
      ((readerMain (some "hi\n".data) (List.replicate 100 'a')).exitCode = 0 ∧
        ∃ t, (t = ['\n'] ∨ t = ['\n', '\n']) ∧
          (readerMain (some "hi\n".data) (List.replicate 100 'a')).stdout =
            "Read: ".data ++ firstLineUpTo 99 "hi\n".data ++ t) :=
  ⟨by decide, by decide,
    reader_outputs_first_line "hi\n".data (List.replicate 100 'a')
      (by decide) (by decide)⟩

/-- A file whose long first line starts with a null byte. -/
def nulLongLine : List Char := '\x00' :: (List.replicate 100 'b' ++ ['\n'])

/-- Claim C5 counterexample: a first line longer than 99 characters whose
first byte is null is read into the buffer, but the reader does not report
the first 99 characters: printf stops at the null byte and the output line
is empty. -/
theorem reader_truncation_report_counterexample :
    99 < (firstLine nulLongLine).length ∧
      (readerMain (some nulLongLine) (List.replicate 100 'a')).stdout ≠
        "Read: ".data ++ nulLongLine.take 99 ++ ['\n'] := by
  exact ⟨by decide, by decide⟩

/-- Claim C5, amended: when the first line of test.txt is longer than 99
characters, the read stores exactly the first 99 characters and a null
terminator in the buffer and never writes past the 100 byte capacity; when
additionally no null byte is among those characters, the reader reports
exactly those 99 characters. -/
theorem reader_truncates_at_99 (contents stackBuf : List Char)
    (hlen : 99 < (firstLine contents).length)
    (hbuf : stackBuf.length = 100) :
    (readerMain (some contents) stackBuf).buffer =
        contents.take 99 ++ ['\x00'] ∧
      (readerMain (some contents) stackBuf).buffer.length = 100 ∧
      ('\x00' ∉ contents.take 99 →
        (readerMain (some contents) stackBuf).stdout =
          "Read: ".data ++ contents.take 99 ++ ['\n']) := by
  have hge : 99 ≤ (firstLine contents).length := Nat.le_of_lt hlen
  have hlc : 99 ≤ contents.length :=
    Nat.le_trans hge (List.takeWhile_prefix _).length_le
  have hne : contents ≠ [] := by
    intro e
    rw [e] at hlc
    exact absurd hlc (by decide)
  have hB := fgetsChars_of_no_newline 99 contents
    (no_newline_in_take contents 99 hge)
  have htk : (contents.take 99).length = 99 := by
    rw [List.length_take]
    exact min_eq_left hlc
  have hpre : (contents.take 99 ++ ['\x00']).length = 100 := by
    simp [htk]
  have hdrop : stackBuf.drop (contents.take 99 ++ ['\x00']).length = [] := by
    apply List.drop_eq_nil_of_le
    rw [hbuf, hpre]
  have hbufeq : (readerMain (some contents) stackBuf).buffer =
      contents.take 99 ++ ['\x00'] := by
    rw [readerMain_buffer_eq contents stackBuf hne, hB, writePrefix, hdrop,
      List.append_nil]
  refine ⟨hbufeq, ?_, ?_⟩
  · rw [hbufeq, hpre]
  · intro hnul
    rw [readerMain_stdout_eq contents stackBuf hne, hB,
      cString_writePrefix stackBuf _ hnul]

/-- Witness for the amended claim C5 at a concrete file with a 150
character first line. -/
theorem reader_truncates_at_99_witness :
    99 < (firstLine (List.replicate 150 'b' ++ ['\n'])).length ∧
      (List.replicate 100 'a' : List Char).length = 100 ∧
      ((readerMain (some (List.replicate 150 'b' ++ ['\n']))
          (List.replicate 100 'a')).buffer =
          (List.replicate 150 'b' ++ ['\n']).take 99 ++ ['\x00'] ∧
        (readerMain (some (List.replicate 150 'b' ++ ['\n']))
          (List.replicate 100 'a')).buffer.length = 100 ∧
        ('\x00' ∉ (List.replicate 150 'b' ++ ['\n']).take 99 →
          (readerMain (some (List.replicate 150 'b' ++ ['\n']))
            (List.replicate 100 'a')).stdout =
            "Read: ".data ++ (List.replicate 150 'b' ++ ['\n']).take 99 ++
              ['\n'])) :=
  ⟨by decide, by decide,
    reader_truncates_at_99 (List.replicate 150 'b' ++ ['\n'])
      (List.replicate 100 'a') (by decide) (by decide)⟩

/-- Claim C6 counterexample: on an empty test.txt the open succeeds and the
read returns, but the buffer is left unchanged and holds no null
terminator when the indeterminate stack content has none. -/
theorem buffer_unterminated_on_empty_file :
    (readerMain (some []) (List.replicate 100 'a')).buffer =
        List.replicate 100 'a' ∧
      '\x00' ∉ (readerMain (some []) (List.replicate 100 'a')).buffer := by
  exact ⟨rfl, by decide⟩

/-- Claim C6, amended: whenever the file is nonempty, so that the read
transfers at least one character, the buffer holds a null terminator after
the read; on an empty file the buffer is left unchanged and may hold
none. -/
theorem buffer_null_terminated_of_nonempty (contents stackBuf : List Char)
    (h : contents ≠ []) :
    '\x00' ∈ (readerMain (some contents) stackBuf).buffer := by
  rw [readerMain_buffer_eq contents stackBuf h]
  simp [writePrefix]

/-- Witness for the amended claim C6 at a concrete nonempty file. -/
theorem buffer_null_terminated_of_nonempty_witness :
    "ok\n".data ≠ ([] : List Char) ∧
      '\x00' ∈ (readerMain (some "ok\n".data)
        (List.replicate 100 'a')).buffer :=
  ⟨by decide,
    buffer_null_terminated_of_nonempty "ok\n".data (List.replicate 100 'a')
      (by decide)⟩
